import Mathlib

/-!
# Verification of the typed-envelopes library

A shallow embedding of the typed-envelopes TypeScript library: a
self-describing, authenticated, versioned binary envelope format.

Modelling conventions:
* Byte buffers (`Uint8Array`) are `List Nat` (each entry a byte value).
* JavaScript strings are modelled by their UTF-8 byte sequences
  (`List Nat`); string equality in the source corresponds to equality
  of the byte sequences (UTF-8 is injective, and the only string
  comparisons the source performs are against valid ASCII constants,
  for which `TextDecoder` decoding is lossless and exact).
* A thrown JavaScript exception is modelled by `Except.error msg`;
  normal return of `x` is `Except.ok x`.  JavaScript `null` results are
  `Option.none` inside the `Except.ok` constructor.
* The external AEAD cipher (`@stablelib/chacha20poly1305`), the
  semantic-version range matcher (`semver`) and the generic
  structured-data codec (`JSON`) are external collaborators; they are
  modelled as opaque function parameters.
-/

/-- Byte buffers: `Uint8Array` values are lists of byte values. -/
abbrev Bytes := List Nat

/-! ## The `varint` npm package

`varint.encode n` produces the little-endian base-128
continuation-bit encoding of `n`; `varint.decode` reads one such value
from the front of a buffer and reports (as `decode.bytes`) how many
bytes it consumed, throwing `RangeError("Could not decode varint")`
when the buffer ends while the continuation bit is still set, and also
when its shift guard (`shift > 49`) would require a ninth byte —
successful decodes therefore consume at most 8 bytes and produce
values below `2^56`.  `varint.encodingLength value` is the canonical
(minimal) encoding length of `value`, computed by a comparison ladder
against the powers `2^7, 2^14, …, 2^63`.

The shared decoder below models the value and consumed-count
semantics; the 8-byte shift guard is imposed explicitly, as the bound
`k ≤ 8` on the consumed count, in the one theorem (C7) whose scope
ranges over arbitrary adversarial cursors where the guard is
reachable.  Everywhere else the decoder is only ever applied to the
canonical length prefixes emitted by `varintPrefixed`, where a ninth
byte would denote a chunk of at least `2^56` bytes — beyond any buffer
a JavaScript runtime can construct. -/

/-- Fuel-driven worker for `varintEncode`; the fuel only forces
termination, `varintEncodeAux_irrel` shows the result is
fuel-independent once the fuel is at least `n`. -/
def varintEncodeAux : Nat → Nat → Bytes
  | 0, n => [n % 128]
  | fuel + 1, n =>
    if n < 128 then [n] else (n % 128 + 128) :: varintEncodeAux fuel (n / 128)

/-- `varint.encode`: little-endian base-128 continuation-bit encoding. -/
def varintEncode (n : Nat) : Bytes := varintEncodeAux n n

/-- `varint.decode` together with `varint.decode.bytes`: returns the
decoded number and the count of bytes consumed, or the thrown
`RangeError` when the buffer ends inside the varint.  The package's
8-byte shift guard is equivalent to the bound `k ≤ 8` on the returned
consumed count, which is imposed as an explicit hypothesis where the
guard is reachable (see the module comment above). -/
def varintDecode : Bytes → Except String (Nat × Nat)
  | [] => .error "Could not decode varint"
  | b :: rest =>
    if b < 128 then .ok (b % 128, 1)
    else
      match varintDecode rest with
      | .error e => .error e
      | .ok (n, k) => .ok (b % 128 + n * 128, k + 1)

/-- `varint.encodingLength`: the canonical (minimal) encoding length
of `value`.  The npm source is the comparison ladder
`value < 2^7 ? 1 : value < 2^14 ? 2 : … : value < 2^63 ? 9 : 10`;
below `2^63` that ladder computes exactly the length of the minimal
base-128 encoding, which is the definition used here
(`encodingLength_ladder` proves the coincidence; the ladder's final
saturation at 10 bytes is reachable only for values at least `2^63`,
far beyond every chunk length the 8-byte decode window can produce). -/
def encodingLength (value : Nat) : Nat := (varintEncode value).length

/-! ## Byte-framing primitives (`src/common/common.ts`) -/

/-- `concatUint8Arrays`: concatenate several buffers in order. -/
def concatUint8Arrays (u8s : List Bytes) : Bytes :=
  u8s.foldr (fun elem acc => elem ++ acc) []

/-- `varintPrefixed`: prepend the varint-encoded length of `data`. -/
def varintPrefixed (data : Bytes) : Bytes :=
  concatUint8Arrays [varintEncode data.length, data]

/-- `extractVarintPrefixed`: decode one varint `chunkLen` from the
front of the buffer, compute `chunkLenLen` as
`varint.encodingLength(chunkLen)` — the canonical encoding length of
the decoded value, not the count of bytes the decoder actually
consumed — then slice out the `chunkLen` bytes starting at offset
`chunkLenLen` as the chunk and advance the cursor past
`chunkLen + chunkLenLen` bytes (the source mutates a cursor object in
place; the model returns the updated cursor contents).
`Uint8Array.slice` clamps to the end of the buffer, exactly as
`List.take` / `List.drop` do. -/
def extractVarintPrefixed (bs : Bytes) : Except String (Bytes × Bytes) :=
  match varintDecode bs with
  | .error e => .error e
  | .ok (chunkLen, _) =>
    .ok ((bs.drop (encodingLength chunkLen)).take chunkLen,
      bs.drop (chunkLen + encodingLength chunkLen))

/-! ## The header record `AADMeta` -/

/-- `AADMeta`: version of the encrypted object, type name of the
encrypted object, and the nonce used for the encryption scheme.  The
`version` and `type` strings are modelled as their UTF-8 bytes. -/
structure AADMeta where
  version : Bytes
  type : Bytes
  nonce : Bytes
deriving DecidableEq, Repr

/-- `AADMeta.METADATA_VERSION = "0.1.0"`, as its UTF-8 bytes. -/
def AADMeta.METADATA_VERSION : Bytes := [48, 46, 49, 46, 48]

/-- `AADMeta.serialize`: four varint-prefixed chunks (metadata format
version, object version, type name, nonce) concatenated and then
varint-prefixed as a whole. -/
def AADMeta.serialize (m : AADMeta) : Bytes :=
  varintPrefixed (concatUint8Arrays
    [varintPrefixed AADMeta.METADATA_VERSION,
     varintPrefixed m.version,
     varintPrefixed m.type,
     varintPrefixed m.nonce])

/-- `AADMeta.deserialize`: reads the four varint-prefixed fields from a
header buffer.  Returns `ok none` (JavaScript `null`) when the
metadata format version is not the supported constant, and throws
(`error`) when extraction fails or trailing bytes remain after the
four fields. -/
def AADMeta.deserialize (data : Bytes) : Except String (Option AADMeta) :=
  match extractVarintPrefixed data with
  | .error e => .error e
  | .ok (metadataVersion, r1) =>
    if metadataVersion ≠ AADMeta.METADATA_VERSION then .ok none
    else
      match extractVarintPrefixed r1 with
      | .error e => .error e
      | .ok (version, r2) =>
        match extractVarintPrefixed r2 with
        | .error e => .error e
        | .ok (type, r3) =>
          match extractVarintPrefixed r3 with
          | .error e => .error e
          | .ok (nonce, r4) =>
            if r4.length ≠ 0 then .error "unexpected additional content in header"
            else .ok (some ⟨version, type, nonce⟩)

/-- The record returned by `AADMeta.unpack`: the parsed metadata (which
the source types as nullable), the raw header bytes (re-encoded with
their length prefix, for use as AEAD associated data), and the sealed
content that follows the header. -/
structure Unpacked where
  metadata : Option AADMeta
  rawMetadata : Bytes
  content : Bytes
deriving DecidableEq, Repr

/-- `AADMeta.unpack`: extract the varint-prefixed header from the
front of `data`, re-encode it as `rawMetadata`, take everything after
it as `content`, parse the header fields via `AADMeta.deserialize`,
and finally re-read the metadata format version from the header and
throw `"unrecognized metadata version"` when it is not the supported
constant.  The parse (which may itself throw) happens before the
version check, matching the statement order of the source. -/
def AADMeta.unpack (data : Bytes) : Except String Unpacked :=
  match extractVarintPrefixed data with
  | .error e => .error e
  | .ok (header, _) =>
    let rawMetadata := varintPrefixed header
    let content := data.drop rawMetadata.length
    match AADMeta.deserialize header with
    | .error e => .error e
    | .ok metadata =>
      match extractVarintPrefixed header with
      | .error e => .error e
      | .ok (metadataVersion, _) =>
        if metadataVersion ≠ AADMeta.METADATA_VERSION
        then .error "unrecognized metadata version"
        else .ok ⟨metadata, rawMetadata, content⟩

/-! ## TypedBytes -/

/-- `TypedBytes` wraps the emitted wire buffer. -/
structure TypedBytes where
  buf : Bytes
deriving DecidableEq, Repr

/-- `TypedBytes.inspect`: parse the header without any cipher
operation; returns the metadata (nullable in the source), propagating
any exception thrown by `AADMeta.unpack`. -/
def TypedBytes.inspect (tb : TypedBytes) : Except String (Option AADMeta) :=
  match AADMeta.unpack tb.buf with
  | .error e => .error e
  | .ok parsed => .ok parsed.metadata

/-! ## The Datagram contract and the envelope `TaggedSecretBox` -/

/-- The data of a value satisfying the `Datagram` contract, as
consumed by `encrypt`: its type tag, its version string (both as UTF-8
bytes) and the result of its `serialize()` method. -/
structure DatagramVal where
  type : Bytes
  version : Bytes
  serializeBytes : Bytes
deriving DecidableEq, Repr

/-- The data of a `DatagramConstructor`, as consumed by `decrypt`: the
prototype's type tag and its `deserialize` method (which may throw,
and may return `null`). -/
structure DatagramCon (T : Type) where
  type : Bytes
  deserialize : Bytes → Bytes → Except String (Option T)

/-- `TaggedSecretBox`: holds the keyed AEAD cipher.  The external
`ChaCha20Poly1305` primitive (with the key baked in) is modelled by
the two opaque deterministic functions `sealFn nonce plaintext aad` and
`opn nonce ciphertext aad` (the latter returning `none` on
authentication failure). -/
structure TaggedSecretBox where
  sealFn : Bytes → Bytes → Bytes → Bytes
  opn : Bytes → Bytes → Bytes → Option Bytes

/-- `TaggedSecretBox.encrypt` with an explicitly supplied nonce (when
the caller omits the nonce the source draws fresh random bytes; that
default is outside this deterministic model): build the `AADMeta`
header from the datagram's version and type, serialize it, seal the
datagram's serialization with the serialized header as associated
data, and concatenate header and sealed bytes. -/
def TaggedSecretBox.encrypt (box : TaggedSecretBox) (obj : DatagramVal)
    (nonce : Bytes) : TypedBytes :=
  let aadSerialized := (AADMeta.mk obj.version obj.type nonce).serialize
  ⟨concatUint8Arrays [aadSerialized, box.sealFn nonce obj.serializeBytes aadSerialized]⟩

/-- `TaggedSecretBox.decrypt`: unpack the header (propagating any
thrown exception), return `null` when the metadata is `null`, AEAD-open
the content with the raw header bytes as associated data (returning
`null` on authentication failure), run the expected type's
`deserialize` on the recovered plaintext at the header's version, and
return the candidate only when the expected type tag equals the
header's type tag (otherwise `null`). -/
def TaggedSecretBox.decrypt {T : Type} (box : TaggedSecretBox)
    (con : DatagramCon T) (typedBytes : TypedBytes) : Except String (Option T) :=
  match AADMeta.unpack typedBytes.buf with
  | .error e => .error e
  | .ok unpacked =>
    match unpacked.metadata with
    | none => .ok none
    | some meta =>
      match box.opn meta.nonce unpacked.content unpacked.rawMetadata with
      | none => .ok none
      | some decrypted =>
        match con.deserialize decrypted meta.version with
        | .error e => .error e
        | .ok candidate => .ok (if con.type = meta.type then candidate else none)

/-! ## The Wrapper adapter -/

/-- `Wrapped<T>`: the `{type, version, data}` triple the Wrapper
adapter serializes through the generic structured-data codec. -/
structure Wrapped (T : Type) where
  type : Bytes
  version : Bytes
  data : T

/-- An instance of the anonymous class produced by the `Wrapper`
factory: its `type` getter returns the factory's fixed tag, its
`version` is the constructor argument, and `data` holds the wrapped
triple. -/
structure WrapperInstance (T : Type) where
  typeName : Bytes
  version : Bytes
  data : Wrapped T

/-- The constructor of the anonymous `Wrapper` class: throws a
validation error when `version` fails the factory's stored range
constraint (the external semver matcher is the opaque predicate
`test`), otherwise stores `{type: typeName, version, data: obj}`. -/
def Wrapper.construct {T : Type} (typeName : Bytes) (test : Bytes → Bool)
    (obj : T) (version : Bytes) : Except String (WrapperInstance T) :=
  if test version then .ok ⟨typeName, version, ⟨typeName, version, obj⟩⟩
  else .error "invalid version string"

/-- `Wrapper.wrap`: exactly the constructor. -/
def Wrapper.wrap {T : Type} (typeName : Bytes) (test : Bytes → Bool)
    (obj : T) (version : Bytes) : Except String (WrapperInstance T) :=
  Wrapper.construct typeName test obj version

/-- The `deserialize` method of the anonymous `Wrapper` class: decode
the bytes with the generic structured-data codec `dec` (`JSON.parse`
composed with UTF-8 decoding — an external collaborator that throws on
undecodable input, modelled by `Except`), return `null` when the
decoded value is `null`, when its type tag differs from the factory's
fixed tag, or when `version` fails the constraint; otherwise return
the inner value only. -/
def Wrapper.deserializeFn {T : Type} (typeName : Bytes) (test : Bytes → Bool)
    (dec : Bytes → Except String (Option (Wrapped T)))
    (data : Bytes) (version : Bytes) : Except String (Option T) :=
  match dec data with
  | .error e => .error e
  | .ok none => .ok none
  | .ok (some ret) =>
    if ret.type ≠ typeName then .ok none
    else if ¬ test version then .ok none
    else .ok (some ret.data)

/-! ## Lemmas about the byte-framing primitives -/

/-- The fuel of `varintEncodeAux` does not matter once it is at least
the number being encoded. -/
theorem varintEncodeAux_irrel (f : Nat) : ∀ (g n : Nat), n ≤ f → n ≤ g →
    varintEncodeAux f n = varintEncodeAux g n := by
  induction f with
  | zero =>
    intro g n hf hg
    have hn : n = 0 := Nat.le_zero.mp hf
    subst hn
    cases g with
    | zero => rfl
    | succ g => simp [varintEncodeAux]
  | succ f ih =>
    intro g n hf hg
    cases g with
    | zero =>
      have hn : n = 0 := Nat.le_zero.mp hg
      subst hn
      simp [varintEncodeAux]
    | succ g =>
      simp only [varintEncodeAux]
      by_cases h : n < 128
      · simp [h]
      · simp only [h, if_false]
        have hdiv : n / 128 < n := Nat.div_lt_self (by omega) (by norm_num)
        exact congrArg _ (ih g (n / 128) (by omega) (by omega))

/-- The defining recursion of `varintEncode`, free of fuel. -/
theorem varintEncode_eq (n : Nat) :
    varintEncode n =
      if n < 128 then [n] else (n % 128 + 128) :: varintEncode (n / 128) := by
  unfold varintEncode
  cases n with
  | zero => simp [varintEncodeAux]
  | succ m =>
    simp only [varintEncodeAux]
    by_cases h : m + 1 < 128
    · simp [h]
    · simp only [h, if_false]
      have hdiv : (m + 1) / 128 < m + 1 := Nat.div_lt_self (by omega) (by norm_num)
      exact congrArg _ (varintEncodeAux_irrel m _ _ (by omega) le_rfl)

/-- Decoding an encoded varint from the front of a buffer recovers the
number and consumes exactly the bytes of its encoding. -/
theorem varintDecode_encode (n : Nat) (rest : Bytes) :
    varintDecode (varintEncode n ++ rest) = .ok (n, (varintEncode n).length) := by
  induction n using Nat.strong_induction_on with
  | _ n ih =>
    rw [varintEncode_eq n]
    by_cases h : n < 128
    · simp [h, varintDecode, Nat.mod_eq_of_lt h]
    · simp only [h, if_false, List.cons_append, varintDecode]
      have hb : ¬ (n % 128 + 128 < 128) := by omega
      simp only [hb, if_false]
      rw [ih (n / 128) (Nat.div_lt_self (by omega) (by norm_num))]
      simp only [List.length_cons]
      have hmod : (n % 128 + 128) % 128 + n / 128 * 128 = n := by omega
      rw [hmod]

/-- The length of a varint encoding follows the recursion of the
encoding itself. -/
theorem varintEncode_length (n : Nat) :
    (varintEncode n).length =
      if n < 128 then 1 else (varintEncode (n / 128)).length + 1 := by
  rw [varintEncode_eq n]
  by_cases h : n < 128 <;> simp [h]

/-- A number in the digit range `[128^k, 128^(k+1))` has a minimal
varint encoding of exactly `k + 1` bytes. -/
theorem varintEncode_length_range :
    ∀ (k n : Nat), 128 ^ k ≤ n → n < 128 ^ (k + 1) →
      (varintEncode n).length = k + 1 := by
  intro k
  induction k with
  | zero =>
    intro n h1 h2
    rw [varintEncode_length]
    have h2a : n < 128 := by simpa using h2
    simp [h2a]
  | succ k ih =>
    intro n h1 h2
    have hn : ¬ n < 128 := by
      have : (128 : Nat) ≤ 128 ^ (k + 1) := Nat.le_self_pow (by omega) 128
      omega
    rw [varintEncode_length]
    simp only [hn, if_false]
    have hlo : 128 ^ k ≤ n / 128 := by
      rw [Nat.le_div_iff_mul_le (by norm_num)]
      calc 128 ^ k * 128 = 128 ^ (k + 1) := by ring
        _ ≤ n := h1
    have hhi : n / 128 < 128 ^ (k + 1) := by
      rw [Nat.div_lt_iff_lt_mul (by norm_num)]
      calc n < 128 ^ (k + 2) := h2
        _ = 128 ^ (k + 1) * 128 := by ring
    rw [ih (n / 128) hlo hhi]

/-- Below `2^63`, `encodingLength` coincides with the npm `varint`
package's comparison-ladder implementation. -/
theorem encodingLength_ladder (value : Nat) (h : value < 2 ^ 63) :
    encodingLength value =
      if value < 2 ^ 7 then 1 else if value < 2 ^ 14 then 2
      else if value < 2 ^ 21 then 3 else if value < 2 ^ 28 then 4
      else if value < 2 ^ 35 then 5 else if value < 2 ^ 42 then 6
      else if value < 2 ^ 49 then 7 else if value < 2 ^ 56 then 8
      else 9 := by
  have hpow : ∀ j : Nat, (2 : Nat) ^ (7 * j) = 128 ^ j := by
    intro j
    rw [pow_mul]
    norm_num
  unfold encodingLength
  split_ifs with h1 h2 h3 h4 h5 h6 h7 h8
  · rw [varintEncode_length]
    have : value < 128 := by omega
    simp [this]
  · exact varintEncode_length_range 1 value
      (by have := hpow 1; omega) (by have := hpow 2; omega)
  · exact varintEncode_length_range 2 value
      (by have := hpow 2; omega) (by have := hpow 3; omega)
  · exact varintEncode_length_range 3 value
      (by have := hpow 3; omega) (by have := hpow 4; omega)
  · exact varintEncode_length_range 4 value
      (by have := hpow 4; omega) (by have := hpow 5; omega)
  · exact varintEncode_length_range 5 value
      (by have := hpow 5; omega) (by have := hpow 6; omega)
  · exact varintEncode_length_range 6 value
      (by have := hpow 6; omega) (by have := hpow 7; omega)
  · exact varintEncode_length_range 7 value
      (by have := hpow 7; omega) (by have := hpow 8; omega)
  · exact varintEncode_length_range 8 value
      (by have := hpow 8; omega) (by have := hpow 9; omega)

/-- `extractVarintPrefixed` inverts `varintPrefixed` at the front of a
buffer: it returns the prefixed chunk and the untouched remainder. -/
theorem extractVarintPrefixed_prefixed (c rest : Bytes) :
    extractVarintPrefixed (varintPrefixed c ++ rest) = .ok (c, rest) := by
  have hvp : varintPrefixed c ++ rest = varintEncode c.length ++ (c ++ rest) := by
    simp [varintPrefixed, concatUint8Arrays]
  rw [hvp]
  unfold extractVarintPrefixed
  simp only [varintDecode_encode, encodingLength]
  have h1 : (varintEncode c.length ++ (c ++ rest)).drop
      (varintEncode c.length).length = c ++ rest := List.drop_left _ _
  have h2 : ((varintEncode c.length ++ (c ++ rest)).drop
      (varintEncode c.length).length).take c.length = c := by
    rw [h1]; exact List.take_left _ _
  have h3 : (varintEncode c.length ++ (c ++ rest)).drop
      (c.length + (varintEncode c.length).length) = rest := by
    rw [Nat.add_comm, ← List.drop_drop, h1]
    exact List.drop_left _ _
  rw [h2, h3]

/-- `extractVarintPrefixed` inverts `varintPrefixed` exactly, leaving
an empty cursor. -/
theorem extractVarintPrefixed_exact (c : Bytes) :
    extractVarintPrefixed (varintPrefixed c) = .ok (c, []) := by
  have h := extractVarintPrefixed_prefixed c []
  simpa using h

/-! ## Lemmas about the header record -/

/-- The four varint-prefixed fields concatenated inside
`AADMeta.serialize`, before the outer length prefix is applied. -/
def AADMeta.headerFields (m : AADMeta) : Bytes :=
  varintPrefixed AADMeta.METADATA_VERSION ++
    (varintPrefixed m.version ++ (varintPrefixed m.type ++ varintPrefixed m.nonce))

/-- `serialize` is the outer length prefix applied to the four inner
prefixed fields. -/
theorem AADMeta.serialize_def (m : AADMeta) :
    m.serialize = varintPrefixed m.headerFields := by
  simp [AADMeta.serialize, AADMeta.headerFields, concatUint8Arrays]

/-- `AADMeta.deserialize` parses the concatenated inner fields back to
the original record. -/
theorem AADMeta.deserialize_headerFields (m : AADMeta) :
    AADMeta.deserialize m.headerFields = .ok (some m) := by
  unfold AADMeta.deserialize AADMeta.headerFields
  simp only [extractVarintPrefixed_prefixed, extractVarintPrefixed_exact]
  simp

/-- Extracting the first varint-prefixed field of the concatenated
header fields yields the metadata format version. -/
theorem AADMeta.extract_headerFields (m : AADMeta) :
    extractVarintPrefixed m.headerFields =
      .ok (AADMeta.METADATA_VERSION,
        varintPrefixed m.version ++ (varintPrefixed m.type ++ varintPrefixed m.nonce)) := by
  unfold AADMeta.headerFields
  exact extractVarintPrefixed_prefixed _ _

/-- `AADMeta.unpack` on a serialized header followed by arbitrary
content succeeds and returns the parsed record, the raw header bytes
(equal to the serialized header), and the untouched content. -/
theorem AADMeta.unpack_serialize_append (m : AADMeta) (content : Bytes) :
    AADMeta.unpack (m.serialize ++ content) = .ok ⟨some m, m.serialize, content⟩ := by
  rw [AADMeta.serialize_def]
  unfold AADMeta.unpack
  simp only [extractVarintPrefixed_prefixed, AADMeta.deserialize_headerFields,
    AADMeta.extract_headerFields]
  have hdrop : (varintPrefixed m.headerFields ++ content).drop
      (varintPrefixed m.headerFields).length = content := List.drop_left _ _
  simp [hdrop]

/-- The wire buffer emitted by `encrypt` is the serialized header
followed by the sealed bytes. -/
theorem TaggedSecretBox.encrypt_buf (box : TaggedSecretBox) (v : DatagramVal)
    (nonce : Bytes) :
    (box.encrypt v nonce).buf =
      (AADMeta.mk v.version v.type nonce).serialize ++
        box.sealFn nonce v.serializeBytes (AADMeta.mk v.version v.type nonce).serialize := by
  simp [TaggedSecretBox.encrypt, concatUint8Arrays]

/-- Unpacking an encrypted buffer recovers the header record built
from the datagram's version, type and nonce, the serialized header as
raw metadata, and the sealed bytes as content. -/
theorem AADMeta.unpack_encrypt (box : TaggedSecretBox) (v : DatagramVal)
    (nonce : Bytes) :
    AADMeta.unpack (box.encrypt v nonce).buf =
      .ok ⟨some (AADMeta.mk v.version v.type nonce),
        (AADMeta.mk v.version v.type nonce).serialize,
        box.sealFn nonce v.serializeBytes (AADMeta.mk v.version v.type nonce).serialize⟩ := by
  rw [TaggedSecretBox.encrypt_buf, AADMeta.unpack_serialize_append]

/-! ## Concrete instruments for witnesses and counterexamples -/

/-- A toy keyed AEAD instance for concrete witnesses: `sealFn` returns
the plaintext and `opn` accepts any ciphertext, so the collaborator
contract `opn n (sealFn n pt ad) ad = some pt` holds definitionally. -/
def toyBox : TaggedSecretBox := ⟨fun _ pt _ => pt, fun _ ct _ => some ct⟩

/-- A concrete datagram constructor with type tag `"x"` (UTF-8 `[120]`)
whose `deserialize` returns the plaintext bytes themselves. -/
def conX : DatagramCon Bytes := ⟨[120], fun d _ => .ok (some d)⟩

/-- A concrete datagram constructor with type tag `"bar"` whose
`deserialize` returns the plaintext bytes themselves. -/
def conBar : DatagramCon Bytes := ⟨[98, 97, 114], fun d _ => .ok (some d)⟩

/-- The spec's concrete scenario datagram: payload `[1,2,3,4,5]`, type
tag `"x"`, version `"0.1.0"`. -/
def vX : DatagramVal := ⟨[120], [48, 46, 49, 46, 48], [1, 2, 3, 4, 5]⟩

/-- A datagram with type tag `"foo"` and version `"0.1.0"`. -/
def vFoo : DatagramVal := ⟨[102, 111, 111], [48, 46, 49, 46, 48], [1, 2, 3]⟩

/-! ## The claims -/

/-- C1: for every keyed AEAD box satisfying the collaborator contract
(opening what was sealed under the same nonce and associated data
returns the plaintext), every datagram value `v`, and every
constructor for `v`'s own type (same type tag, and a `deserialize`
that reproduces a value `w` from `v`'s serialization at `v`'s version
— `v`'s own equality notion), decrypting the encryption of `v` returns
that non-null value `w`, and the envelope carries exactly `v`'s type
tag and version string in its header. -/
theorem C1_encrypt_decrypt_roundtrip {T : Type} (box : TaggedSecretBox)
    (v : DatagramVal) (con : DatagramCon T) (w : T) (nonce : Bytes)
    (hAEAD : box.opn nonce
      (box.sealFn nonce v.serializeBytes (AADMeta.mk v.version v.type nonce).serialize)
      (AADMeta.mk v.version v.type nonce).serialize = some v.serializeBytes)
    (hty : con.type = v.type)
    (hde : con.deserialize v.serializeBytes v.version = .ok (some w)) :
    box.decrypt con (box.encrypt v nonce) = .ok (some w) ∧
    AADMeta.unpack (box.encrypt v nonce).buf =
      .ok ⟨some (AADMeta.mk v.version v.type nonce),
        (AADMeta.mk v.version v.type nonce).serialize,
        box.sealFn nonce v.serializeBytes (AADMeta.mk v.version v.type nonce).serialize⟩ := by
  refine ⟨?_, AADMeta.unpack_encrypt box v nonce⟩
  unfold TaggedSecretBox.decrypt
  simp [AADMeta.unpack_encrypt, hAEAD, hde, hty]

/-- C1 witness: the spec's concrete scenario — type `"x"`, version
`"0.1.0"`, payload `[1,2,3,4,5]` — round-trips through the toy AEAD. -/
theorem C1_encrypt_decrypt_roundtrip_witness :
    toyBox.decrypt conX (toyBox.encrypt vX [7, 7, 7]) = .ok (some [1, 2, 3, 4, 5]) :=
  (C1_encrypt_decrypt_roundtrip toyBox vX conX [1, 2, 3, 4, 5] [7, 7, 7] rfl rfl rfl).1

/-- C2 counterexample: the empty buffer is an input on which header
decoding fails (the length prefix is malformed), yet `decrypt` raises
the varint decode error instead of returning `null`. -/
theorem C2_decrypt_header_failure_counterexample :
    toyBox.decrypt conX ⟨[]⟩ = .error "Could not decode varint" ∧
    toyBox.decrypt conX ⟨[]⟩ ≠ .ok none :=
  ⟨rfl, fun h => nomatch h⟩

/-- C2 amended: on every buffer on which header decoding fails (any
thrown error of `AADMeta.unpack`), `decrypt` raises that same fault
rather than returning `null`; `null` is reserved for authentication
failure, a `null` deserialize result, and type-tag mismatch. -/
theorem C2_decrypt_propagates_header_error {T : Type} (box : TaggedSecretBox)
    (con : DatagramCon T) (buf : Bytes) (e : String)
    (h : AADMeta.unpack buf = .error e) :
    box.decrypt con ⟨buf⟩ = .error e := by
  simp [TaggedSecretBox.decrypt, h]

/-- C2 witness: the one-byte buffer `[0]` declares an empty header, in
which the metadata format version's length prefix is missing, and
`decrypt` raises the propagated varint decode error on it. -/
theorem C2_decrypt_propagates_header_error_witness :
    toyBox.decrypt conX ⟨[0]⟩ = .error "Could not decode varint" :=
  C2_decrypt_propagates_header_error toyBox conX [0] "Could not decode varint" rfl

/-- C3 counterexample: the empty buffer is a non-envelope buffer on
which header decoding fails, yet `inspect` raises the varint decode
error instead of returning `null`. -/
theorem C3_inspect_counterexample :
    TypedBytes.inspect ⟨[]⟩ = .error "Could not decode varint" ∧
    TypedBytes.inspect ⟨[]⟩ ≠ .ok none :=
  ⟨rfl, fun h => nomatch h⟩

/-- C3 amended: `inspect` — which takes no key or cipher argument at
all — returns, on every buffer produced by `encrypt`, exactly the type
tag and version string used to construct the envelope; on every buffer
on which header decoding fails it raises the decode fault rather than
returning `null`. -/
theorem C3_inspect_amended :
    (∀ (box : TaggedSecretBox) (v : DatagramVal) (nonce : Bytes),
      ∃ meta, (box.encrypt v nonce).inspect = .ok (some meta) ∧
        meta.type = v.type ∧ meta.version = v.version) ∧
    (∀ (buf : Bytes) (e : String), AADMeta.unpack buf = .error e →
      TypedBytes.inspect ⟨buf⟩ = .error e) := by
  constructor
  · intro box v nonce
    refine ⟨AADMeta.mk v.version v.type nonce, ?_, rfl, rfl⟩
    unfold TypedBytes.inspect
    simp [AADMeta.unpack_encrypt]
  · intro buf e h
    simp [TypedBytes.inspect, h]

/-- C3 witness: inspecting the toy encryption of the `"x"`/`"0.1.0"`
datagram reports its tag and version, and inspecting the empty buffer
raises the varint decode error. -/
theorem C3_inspect_amended_witness :
    (∃ meta, (toyBox.encrypt vX [9, 9, 9]).inspect = .ok (some meta) ∧
      meta.type = vX.type ∧ meta.version = vX.version) ∧
    TypedBytes.inspect ⟨[]⟩ = .error "Could not decode varint" :=
  ⟨C3_inspect_amended.1 toyBox vX [9, 9, 9],
   C3_inspect_amended.2 [] "Could not decode varint" rfl⟩

/-- C4: whenever the outer header chunk extracts and its first inner
field (the decoded metadata format version) is not exactly the
supported constant `"0.1.0"`, `AADMeta.unpack` fails with the decode
error `"unrecognized metadata version"`, regardless of everything that
follows in the buffer. -/
theorem C4_format_version_gate (data header rest fv r1 : Bytes)
    (h1 : extractVarintPrefixed data = .ok (header, rest))
    (h2 : extractVarintPrefixed header = .ok (fv, r1))
    (hfv : fv ≠ AADMeta.METADATA_VERSION) :
    AADMeta.unpack data = .error "unrecognized metadata version" := by
  have hdes : AADMeta.deserialize header = .ok none := by
    unfold AADMeta.deserialize
    simp [h2, hfv]
  unfold AADMeta.unpack
  simp [h1, hdes, h2, hfv]

/-- C4 witness: a buffer whose header declares metadata format version
`"9.9.9"` (UTF-8 bytes `[57,46,57,46,57]`) followed by arbitrary
payload bytes `[9,9]` is rejected during header parsing. -/
theorem C4_format_version_gate_witness :
    AADMeta.unpack [6, 5, 57, 46, 57, 46, 57, 9, 9] =
      .error "unrecognized metadata version" :=
  C4_format_version_gate [6, 5, 57, 46, 57, 46, 57, 9, 9]
    [5, 57, 46, 57, 46, 57] [9, 9] [57, 46, 57, 46, 57] [] rfl rfl (by decide)

/-- C5: `serialize` emits exactly the varint length prefix of — and
then the bytes of — the four individually varint-length-prefixed
chunks: metadata format version, payload version, payload type, nonce,
in that order; and the metadata format version chunk is the UTF-8
encoding of the fixed string `"0.1.0"` (an ASCII string, so its UTF-8
bytes are its character code points). -/
theorem C5_serialize_layout (m : AADMeta) :
    m.serialize =
      varintEncode (varintEncode AADMeta.METADATA_VERSION.length ++ AADMeta.METADATA_VERSION ++
        (varintEncode m.version.length ++ m.version) ++
        (varintEncode m.type.length ++ m.type) ++
        (varintEncode m.nonce.length ++ m.nonce)).length ++
      (varintEncode AADMeta.METADATA_VERSION.length ++ AADMeta.METADATA_VERSION ++
        (varintEncode m.version.length ++ m.version) ++
        (varintEncode m.type.length ++ m.type) ++
        (varintEncode m.nonce.length ++ m.nonce)) ∧
    AADMeta.METADATA_VERSION = "0.1.0".toList.map Char.toNat := by
  refine ⟨?_, by decide⟩
  simp [AADMeta.serialize, varintPrefixed, concatUint8Arrays, List.append_assoc]

/-- C6: decrypting a buffer encrypted for a datagram with one type tag
using a constructor expecting a different type tag returns `null`,
even when the AEAD opens successfully and the constructor's structural
decode of the plaintext succeeds with a value. -/
theorem C6_type_isolation {T : Type} (box : TaggedSecretBox) (v : DatagramVal)
    (con : DatagramCon T) (u : T) (nonce : Bytes)
    (hAEAD : box.opn nonce
      (box.sealFn nonce v.serializeBytes (AADMeta.mk v.version v.type nonce).serialize)
      (AADMeta.mk v.version v.type nonce).serialize = some v.serializeBytes)
    (hne : con.type ≠ v.type)
    (hde : con.deserialize v.serializeBytes v.version = .ok (some u)) :
    box.decrypt con (box.encrypt v nonce) = .ok none := by
  unfold TaggedSecretBox.decrypt
  simp [AADMeta.unpack_encrypt, hAEAD, hde, hne]

/-- C6 witness: a buffer produced for type tag `"foo"` decrypted with
a decoder expecting tag `"bar"` (whose structural decode succeeds)
yields `null`. -/
theorem C6_type_isolation_witness :
    toyBox.decrypt conBar (toyBox.encrypt vFoo [1, 1, 1]) = .ok none :=
  C6_type_isolation toyBox vFoo conBar [1, 2, 3] [1, 1, 1] rfl (by decide) rfl

/-- C7 counterexample: on the cursor `[5,1,2]` the varint decodes to
`n = 5` while only two bytes remain, yet `extractVarintPrefixed`
returns the truncated chunk `[1,2]` with no decode error. -/
theorem C7_extract_truncation_counterexample :
    varintDecode [5, 1, 2] = .ok (5, 1) ∧
    ([1, 2] : Bytes).length < 5 ∧
    extractVarintPrefixed [5, 1, 2] = .ok ([1, 2], []) :=
  ⟨rfl, by norm_num, rfl⟩

/-- C7 amended: within the varint package's 8-byte decode window (its
`shift > 49` guard is equivalent to the consumed count being at most
8; beyond that window the source decoder throws), whenever the leading
varint decodes to `n`, `extractVarintPrefixed` never fails with a
decode error: its chunk is the `n` bytes starting at offset
`encodingLength n` — the canonical encoding length of the decoded
value, which the source uses in place of the consumed byte count —
silently clamped by `Uint8Array.slice` when fewer than `n` bytes are
available there, and the cursor advances past `n + encodingLength n`
bytes. -/
theorem C7_extract_clamps (bs : Bytes) (n k : Nat)
    (h : varintDecode bs = .ok (n, k)) (hk : k ≤ 8) :
    extractVarintPrefixed bs =
      .ok ((bs.drop (encodingLength n)).take n,
        bs.drop (n + encodingLength n)) := by
  simp [extractVarintPrefixed, h]

/-- C7 witness: on the cursor `[133, 128, 0, 9, 9, 9, 9]`, whose
leading varint is the non-minimal three-byte encoding of `n = 5`, the
chunk is the five bytes starting at offset `encodingLength 5 = 1`
(so `[128, 0, 9, 9]` would be wrong: the chunk re-reads the trailing
varint bytes) and the cursor is left at `[9]` — matching the source,
which slices from `varint.encodingLength(5) = 1`, not from the three
consumed bytes. -/
theorem C7_extract_clamps_witness :
    extractVarintPrefixed [133, 128, 0, 9, 9, 9, 9] = .ok ([128, 0, 9, 9, 9], [9]) :=
  C7_extract_clamps [133, 128, 0, 9, 9, 9, 9] 5 3 rfl (by norm_num)

/-- C8: the constructor behind `wrap` raises the validation error
exactly when the supplied version fails the factory's stored range
constraint (the external semver matcher, modelled as the opaque
predicate `test`); on success the produced instance's type getter
reports the factory's fixed tag and its version reports the supplied
version string. -/
theorem C8_wrap_version_gate {T : Type} (typeName : Bytes) (test : Bytes → Bool)
    (obj : T) (version : Bytes) :
    (test version = false →
      Wrapper.wrap typeName test obj version = .error "invalid version string") ∧
    (test version = true →
      Wrapper.wrap typeName test obj version =
        .ok ⟨typeName, version, ⟨typeName, version, obj⟩⟩) := by
  constructor <;> intro h <;> simp [Wrapper.wrap, Wrapper.construct, h]

/-- Modelled from the spec: the external semver `Range` for the
constraint `"0.1.*"` of the spec's example — satisfied exactly by
version strings beginning with `"0.1."` (UTF-8 bytes 48, 46, 49, 46),
so it accepts `"0.1.0"`, `"0.1.1"`, `"0.1.9"` and rejects `"0.2.0"`. -/
def range01Star : Bytes → Bool := fun v => v.take 4 = [48, 46, 49, 46]

/-- C8 witness: with the `"0.1.*"` constraint, wrapping at version
`"0.1.0"` succeeds with the factory tag and supplied version, and
wrapping at version `"0.2.0"` raises the validation error. -/
theorem C8_wrap_version_gate_witness :
    Wrapper.wrap [119] range01Star (42 : Nat) [48, 46, 49, 46, 48] =
      .ok ⟨[119], [48, 46, 49, 46, 48], ⟨[119], [48, 46, 49, 46, 48], 42⟩⟩ ∧
    Wrapper.wrap [119] range01Star (42 : Nat) [48, 46, 50, 46, 48] =
      .error "invalid version string" :=
  ⟨(C8_wrap_version_gate [119] range01Star 42 [48, 46, 49, 46, 48]).2 (by decide),
   (C8_wrap_version_gate [119] range01Star 42 [48, 46, 50, 46, 48]).1 (by decide)⟩

/-- Modelled from the spec: the opaque generic structured-data decoder
(`JSON.parse` after UTF-8 decoding).  `JSON.parse` throws a
`SyntaxError` on input that is not valid JSON — in particular on the
empty buffer — parses the four bytes of `"null"` to `null`, and is
here stubbed to a fixed decoded envelope of type tag `"foo"` on every
other input, enough to exercise every branch of the generated
`deserialize`. -/
def jsonParseStub : Bytes → Except String (Option (Wrapped Nat))
  | [] => .error "Unexpected end of JSON input"
  | [110, 117, 108, 108] => .ok none
  | bs => .ok (some ⟨[102, 111, 111], [48, 46, 49, 46, 48], bs.length⟩)

/-- C9 counterexample: on bytes that do not decode (the empty buffer is
not valid JSON), the generated `deserialize` raises the decoder's
error instead of returning `null`. -/
theorem C9_deserialize_counterexample :
    Wrapper.deserializeFn [102, 111, 111] range01Star jsonParseStub []
        [48, 46, 49, 46, 48] = .error "Unexpected end of JSON input" ∧
    Wrapper.deserializeFn [102, 111, 111] range01Star jsonParseStub []
        [48, 46, 49, 46, 48] ≠ .ok none :=
  ⟨rfl, fun h => nomatch h⟩

/-- C9 amended: the generated `deserialize` returns `null` when the
decoded value is `null`; on a decoded envelope it returns `null` on
type-tag or version-constraint mismatch and otherwise only the inner
value; but when the generic decoder fails on the bytes, it raises that
failure rather than returning `null`. -/
theorem C9_deserialize_amended {T : Type} (typeName : Bytes) (test : Bytes → Bool)
    (dec : Bytes → Except String (Option (Wrapped T))) (data version : Bytes) :
    (∀ e, dec data = .error e →
      Wrapper.deserializeFn typeName test dec data version = .error e) ∧
    (dec data = .ok none →
      Wrapper.deserializeFn typeName test dec data version = .ok none) ∧
    (∀ w, dec data = .ok (some w) →
      Wrapper.deserializeFn typeName test dec data version =
        .ok (if w.type = typeName ∧ test version = true then some w.data else none)) := by
  refine ⟨?_, ?_, ?_⟩
  · intro e h
    simp [Wrapper.deserializeFn, h]
  · intro h
    simp [Wrapper.deserializeFn, h]
  · intro w h
    by_cases hty : w.type = typeName <;> by_cases hv : test version = true <;>
      simp [Wrapper.deserializeFn, h, hty, hv]

/-- C9 witness: the three branches of the amended claim at concrete
inputs of the stubbed JSON decoder. -/
theorem C9_deserialize_amended_witness :
    Wrapper.deserializeFn [102, 111, 111] range01Star jsonParseStub
        [110, 117, 108, 108] [48, 46, 49, 46, 48] = .ok none ∧
    Wrapper.deserializeFn [102, 111, 111] range01Star jsonParseStub
        [1] [48, 46, 49, 46, 48] =
      .ok (if ([102, 111, 111] : Bytes) = [102, 111, 111] ∧
            range01Star [48, 46, 49, 46, 48] = true then some 1 else none) ∧
    Wrapper.deserializeFn [102, 111, 111] range01Star jsonParseStub
        [] [48, 46, 49, 46, 48] = .error "Unexpected end of JSON input" :=
  ⟨(C9_deserialize_amended [102, 111, 111] range01Star jsonParseStub
      [110, 117, 108, 108] [48, 46, 49, 46, 48]).2.1 rfl,
   (C9_deserialize_amended [102, 111, 111] range01Star jsonParseStub
      [1] [48, 46, 49, 46, 48]).2.2 ⟨[102, 111, 111], [48, 46, 49, 46, 48], 1⟩ rfl,
   (C9_deserialize_amended [102, 111, 111] range01Star jsonParseStub
      [] [48, 46, 49, 46, 48]).1 "Unexpected end of JSON input" rfl⟩

/-- C10: with an explicitly supplied nonce, `encrypt` is
deterministic — it consults no randomness and depends only on the
key (the sealed box), the datagram's type, version and serialized
bytes, and the nonce: two datagrams agreeing on those three fields
encrypt to byte-identical wire buffers under the same box and nonce. -/
theorem C10_encrypt_deterministic (box : TaggedSecretBox) (d1 d2 : DatagramVal)
    (nonce : Bytes) (ht : d1.type = d2.type) (hv : d1.version = d2.version)
    (hs : d1.serializeBytes = d2.serializeBytes) :
    box.encrypt d1 nonce = box.encrypt d2 nonce := by
  simp [TaggedSecretBox.encrypt, ht, hv, hs]

/-- C10 witness: two structurally equal datagram values encrypt to the
same wire buffer under the toy box and a fixed nonce. -/
theorem C10_encrypt_deterministic_witness :
    toyBox.encrypt vX [3, 3, 3] =
      toyBox.encrypt ⟨[120], [48, 46, 49, 46, 48], [1, 2, 3, 4, 5]⟩ [3, 3, 3] :=
  C10_encrypt_deterministic toyBox vX ⟨[120], [48, 46, 49, 46, 48], [1, 2, 3, 4, 5]⟩
    [3, 3, 3] rfl rfl rfl
